import Mathlib

/-!
Verification of the coordination core in src/Cordinator.py: a bounded
conversation memory (Memory), an intent classifier (LLMIntentAgent), a reply
generator (LLMReplyAgent) and the orchestrating LLMCoordinator.

The Python code is embedded shallowly: the external language-model backend
(the google genai client), the JSON parser (json.loads) and the clock
(datetime.now) are modelled as an explicit Backend record of pure oracles
whose fallible operations return Except values, standing for Python calls
that may raise. Everything in src/Cordinator.py itself is translated
directly; Python exceptions absorbed by a try/except become a match on the
Except value of the attempted block.
-/

/-- Opaque error payload standing for a Python exception object caught by a
bare except clause. -/
structure Err where
  msg : String
deriving Repr, DecidableEq

/-- One conversation entry as built by Memory.add in src/Cordinator.py:
the dict with keys role, content and time (the isoformat timestamp). -/
structure Turn where
  role : String
  content : String
  time : String
deriving Repr, DecidableEq

/-- The Memory dataclass of src/Cordinator.py: an ordered list of turns and
the retention bound max_history (default 20). -/
structure Memory where
  messages : List Turn := []
  max_history : Nat := 20
deriving Repr, DecidableEq

/-- Models the Python slice xs[-n:] for a non-negative int n (max_history is
only ever non-negative here, default 20). Python peculiarity: for n = 0 the
slice xs[-0:] is xs[0:], the whole list; for n > 0 it is the last n elements
(all of xs when xs has fewer than n). -/
def takeLastPy (n : Nat) (xs : List α) : List α :=
  if n = 0 then xs else xs.drop (xs.length - n)

/-- Memory.add of src/Cordinator.py lines 16-25: append the new turn dict,
then if the length now exceeds max_history keep self.messages[-max_history:].
The timestamp string datetime.now().isoformat() is passed in by the caller
(the clock is external). -/
def Memory.add (m : Memory) (role content time : String) : Memory :=
  let msgs := m.messages ++ [⟨role, content, time⟩]
  if m.max_history < msgs.length then
    { m with messages := takeLastPy m.max_history msgs }
  else
    { m with messages := msgs }

/-- Memory.get_context of src/Cordinator.py lines 27-31: start from the
empty string and append the line made of role, a colon-space, content and a
newline, for each of the last five turns (the slice self.messages[-5:]). -/
def Memory.get_context (m : Memory) : String :=
  (takeLastPy 5 m.messages).foldl
    (fun out t => out ++ t.role ++ ": " ++ t.content ++ "\n") ""

/-- The external world of src/Cordinator.py, as pure oracles:
generateStructured is client.models.generate_content with the JSON
response_schema config (classification call), generateText is the plain
generate_content (reply call); both return the response text or the raised
exception. jsonLoads models json.loads applied to the classification
response text, yielding a string-keyed dict on success (the schema declares
both properties string-typed) and an error when parsing fails or the parsed
value is not such a dict. now is datetime.now().isoformat(), indexed by a
tick counting the clock reads made so far. -/
structure Backend where
  generateStructured : String → Except Err String
  jsonLoads : String → Except Err (List (String × String))
  generateText : String → Except Err String
  now : Nat → String

/-- Python dict subscript d[k] on the parsed JSON dict: the value when the
key is present, a KeyError otherwise. -/
def dictGet (d : List (String × String)) (k : String) : Except Err String :=
  match d.lookup k with
  | some v => pure v
  | none => Except.error ⟨"KeyError"⟩

/-- The f-string prompt built by LLMIntentAgent.classify (the triple-quoted
literal of lines 39-45, with its leading newline and indentation). -/
def classifyPrompt (message : String) : String :=
  "\n        Analyze the user message below and classify its intent into one of the following categories:\n        \x27refund\x27, \x27cancellation\x27, \x27billing\x27, \x27general_help\x27, \x27general\x27.\n        Also, assign an urgency level: \x27low\x27, \x27medium\x27, \x27high\x27.\n        Format your response as a single JSON object with keys \x27intent\x27 and \x27urgency\x27.\n        Message: \"" ++ message ++ "\"\n        "

/-- The body of the try block of LLMIntentAgent.classify lines 46-64: call
the backend with the classification prompt, parse response.text with
json.loads, then read result[intent] and result[urgency]. Any failure of
any step is the Except error, standing for the raised exception. -/
def LLMIntentAgent.classifyAttempt (b : Backend) (message : String) :
    Except Err (String × String) := do
  let text ← b.generateStructured (classifyPrompt message)
  let result ← b.jsonLoads text
  let intent ← dictGet result "intent"
  let urgency ← dictGet result "urgency"
  pure (intent, urgency)

/-- LLMIntentAgent.classify lines 38-66: the try block on success returns
the parsed pair; the except clause logs and returns the sentinel pair. -/
def LLMIntentAgent.classify (b : Backend) (message : String) :
    String × String :=
  match LLMIntentAgent.classifyAttempt b message with
  | Except.ok p => p
  | Except.error _ => ("error", "low")

/-- The f-string prompt built by LLMReplyAgent.create_reply (the
triple-quoted literal of lines 79-88). Note the message argument does not
occur in the prompt text; only intent, urgency and context are interpolated. -/
def replyPrompt (intent urgency context : String) : String :=
  "\n        You are a helpful and polite customer support agent.\n        The user\x27s current intent is classified as \x27" ++ intent ++ "\x27 with \x27" ++ urgency ++ "\x27 urgency.\n        Here is the recent conversation history:\n        ---\n        " ++ context ++ "\n        ---\n        Based only on the above context and the most recent user message, write a concise, professional reply.\n        If you need more information (like an order ID or email), politely ask for it.\n        "

/-- LLMReplyAgent.create_reply lines 73-94: try the plain generate_content
call and return response.text verbatim; on any exception log and return the
fixed fallback string. The message parameter is accepted (as in the source
signature) but unused by the prompt. -/
def LLMReplyAgent.create_reply (b : Backend)
    (message intent urgency context : String) : String :=
  match b.generateText (replyPrompt intent urgency context) with
  | Except.ok text => text
  | Except.error _ =>
      "Sorry, I am having trouble connecting to my services right now."

/-- LLMCoordinator.ask lines 103-110, over explicit state: the memory (the
coordinator's self.memory) and the tick of the external clock. Steps in
source order: add the user turn, classify, read the context, generate the
reply, build final_output (the dict literal, kept as an ordered key-value
list), add the agent turn, return final_output. Each Memory.add consumes
one clock tick for its timestamp. -/
def LLMCoordinator.ask (b : Backend) (mem : Memory) (tick : Nat)
    (message : String) : List (String × String) × Memory × Nat :=
  let mem1 := mem.add "user" message (b.now tick)
  let iu := LLMIntentAgent.classify b message
  let intent := iu.1
  let urgency := iu.2
  let context := mem1.get_context
  let reply := LLMReplyAgent.create_reply b message intent urgency context
  let finalOutput := [("intent", intent), ("urgency", urgency), ("reply", reply)]
  let mem2 := mem1.add "agent" reply (b.now (tick + 1))
  (finalOutput, mem2, tick + 2)

/-- The memory a fresh LLMCoordinator constructs (line 101): Memory() with
the defaults, empty messages and max_history 20. -/
def LLMCoordinator.initMemory : Memory := {}

/-- Iterate LLMCoordinator.ask over a list of messages, threading the
memory and the clock tick, and discard the per-call results. -/
def LLMCoordinator.askAll (b : Backend) (msgs : List String) (mem : Memory)
    (tick : Nat) : Memory × Nat :=
  match msgs with
  | [] => (mem, tick)
  | msg :: rest =>
      let r := LLMCoordinator.ask b mem tick msg
      LLMCoordinator.askAll b rest r.2.1 r.2.2

/-- A concrete healthy backend for witnesses and scenario runs: the
classification call yields JSON parsing to intent general and urgency low,
the reply call yields the text reply, the clock always reads T. -/
def okBackend : Backend where
  generateStructured := fun _ => Except.ok "j"
  jsonLoads := fun _ => Except.ok [("intent", "general"), ("urgency", "low")]
  generateText := fun _ => Except.ok "reply"
  now := fun _ => "T"

/-- A concrete backend whose every model call raises. -/
def failBackend : Backend where
  generateStructured := fun _ => Except.error ⟨"backend down"⟩
  jsonLoads := fun _ => Except.error ⟨"backend down"⟩
  generateText := fun _ => Except.error ⟨"backend down"⟩
  now := fun _ => "T"

/-- The eleven distinct messages of the truncation scenario. -/
def msgs11 : List String :=
  ["m01", "m02", "m03", "m04", "m05", "m06", "m07", "m08", "m09", "m10", "m11"]


/-! Helper lemmas about takeLastPy and Memory.add. -/

/-- The Python slice xs[-0:] is the whole list. -/
theorem takeLastPy_zero (xs : List α) : takeLastPy 0 xs = xs := rfl

/-- The Python slice xs[-n:] for positive n drops all but the last n. -/
theorem takeLastPy_of_ne (n : Nat) (xs : List α) (h : n ≠ 0) :
    takeLastPy n xs = xs.drop (xs.length - n) := by
  unfold takeLastPy
  rw [if_neg h]

/-- Memory.add in the truncating branch. -/
theorem Memory.add_eq_of_lt (m : Memory) (r c t : String)
    (h : m.max_history < (m.messages ++ [(⟨r, c, t⟩ : Turn)]).length) :
    m.add r c t =
      { m with messages := takeLastPy m.max_history (m.messages ++ [(⟨r, c, t⟩ : Turn)]) } := by
  simp only [Memory.add]
  rw [if_pos h]

/-- Memory.add in the non-truncating branch. -/
theorem Memory.add_eq_of_ge (m : Memory) (r c t : String)
    (h : ¬ m.max_history < (m.messages ++ [(⟨r, c, t⟩ : Turn)]).length) :
    m.add r c t = { m with messages := m.messages ++ [(⟨r, c, t⟩ : Turn)] } := by
  simp only [Memory.add]
  rw [if_neg h]

/-- Memory.add never changes the retention bound. -/
theorem Memory.add_max_history (m : Memory) (r c t : String) :
    (m.add r c t).max_history = m.max_history := by
  by_cases h : m.max_history < (m.messages ++ [(⟨r, c, t⟩ : Turn)]).length
  · rw [Memory.add_eq_of_lt m r c t h]
  · rw [Memory.add_eq_of_ge m r c t h]

/-- Length of the message list after Memory.add, for any positive bound:
one more than before, clipped at max_history. -/
theorem Memory.length_add (m : Memory) (r c t : String)
    (h : 1 ≤ m.max_history) :
    (m.add r c t).messages.length = min (m.messages.length + 1) m.max_history := by
  by_cases hlt : m.max_history < (m.messages ++ [(⟨r, c, t⟩ : Turn)]).length
  · rw [Memory.add_eq_of_lt m r c t hlt, takeLastPy_of_ne _ _ (by omega)]
    simp only [List.length_append, List.length_cons, List.length_nil] at hlt
    simp only [List.length_drop, List.length_append, List.length_cons, List.length_nil]
    omega
  · rw [Memory.add_eq_of_ge m r c t hlt]
    simp only [List.length_append, List.length_cons, List.length_nil] at hlt
    simp only [List.length_append, List.length_cons, List.length_nil]
    omega

/-- When the bound is positive, Memory.add keeps exactly the suffix of the
appended list that fits the bound (the drop count is zero when nothing is
evicted). -/
theorem Memory.add_messages (m : Memory) (r c t : String)
    (h1 : 1 ≤ m.max_history) :
    (m.add r c t).messages =
      (m.messages ++ [(⟨r, c, t⟩ : Turn)]).drop ((m.messages.length + 1) - m.max_history) := by
  by_cases hlt : m.max_history < (m.messages ++ [(⟨r, c, t⟩ : Turn)]).length
  · rw [Memory.add_eq_of_lt m r c t hlt, takeLastPy_of_ne _ _ (by omega)]
    simp only [List.length_append, List.length_cons, List.length_nil]
  · rw [Memory.add_eq_of_ge m r c t hlt]
    simp only [List.length_append, List.length_cons, List.length_nil, not_lt] at hlt
    rw [Nat.sub_eq_zero_of_le (by omega), List.drop_zero]

/-- The turn just added by Memory.add is always the last message kept. -/
theorem Memory.add_ends (m : Memory) (r c t : String) :
    ∃ pre, (m.add r c t).messages = pre ++ [(⟨r, c, t⟩ : Turn)] := by
  by_cases hlt : m.max_history < (m.messages ++ [(⟨r, c, t⟩ : Turn)]).length
  · by_cases h0 : m.max_history = 0
    · refine ⟨m.messages, ?_⟩
      rw [Memory.add_eq_of_lt m r c t hlt]
      show takeLastPy m.max_history (m.messages ++ [(⟨r, c, t⟩ : Turn)]) = m.messages ++ [(⟨r, c, t⟩ : Turn)]
      rw [h0, takeLastPy_zero]
    · refine ⟨m.messages.drop ((m.messages ++ [(⟨r, c, t⟩ : Turn)]).length - m.max_history), ?_⟩
      rw [Memory.add_eq_of_lt m r c t hlt]
      show takeLastPy m.max_history (m.messages ++ [(⟨r, c, t⟩ : Turn)]) = _
      rw [takeLastPy_of_ne _ _ h0]
      simp only [List.length_append, List.length_cons, List.length_nil] at hlt
      rw [List.drop_append_of_le_length
        (by simp only [List.length_append, List.length_cons, List.length_nil]; omega)]
  · refine ⟨m.messages, ?_⟩
    rw [Memory.add_eq_of_ge m r c t hlt]

/-- When the bound is at least two and the messages end in x, Memory.add
keeps both x and the new turn at the end. -/
theorem Memory.add_keeps_last2 (m : Memory) (r c t : String)
    (pre : List Turn) (x : Turn) (h2 : 2 ≤ m.max_history)
    (hm : m.messages = pre ++ [x]) :
    ∃ q, (m.add r c t).messages = q ++ [x, ⟨r, c, t⟩] := by
  have hass : m.messages ++ [(⟨r, c, t⟩ : Turn)] = pre ++ [x, ⟨r, c, t⟩] := by
    rw [hm]
    simp
  by_cases hlt : m.max_history < (m.messages ++ [(⟨r, c, t⟩ : Turn)]).length
  · rw [Memory.add_eq_of_lt m r c t hlt]
    show ∃ q, takeLastPy m.max_history (m.messages ++ [(⟨r, c, t⟩ : Turn)]) =
      q ++ [x, ⟨r, c, t⟩]
    rw [takeLastPy_of_ne _ _ (by omega), hass]
    refine ⟨pre.drop ((pre ++ [x, (⟨r, c, t⟩ : Turn)]).length - m.max_history), ?_⟩
    rw [List.drop_append_of_le_length
      (by simp only [List.length_append, List.length_cons, List.length_nil]; omega)]
  · refine ⟨pre, ?_⟩
    rw [Memory.add_eq_of_ge m r c t hlt]
    exact hass

/-! Lemmas about LLMCoordinator.ask and the iterated run. -/

/-- The memory state after ask: the user turn is added, then the agent turn
whose content is the generated reply. Holds by unfolding the definition. -/
theorem LLMCoordinator.ask_mem (b : Backend) (mem : Memory) (tick : Nat)
    (msg : String) :
    (LLMCoordinator.ask b mem tick msg).2.1 =
      (mem.add "user" msg (b.now tick)).add "agent"
        (LLMReplyAgent.create_reply b msg (LLMIntentAgent.classify b msg).1
          (LLMIntentAgent.classify b msg).2
          (Memory.get_context (mem.add "user" msg (b.now tick))))
        (b.now (tick + 1)) := rfl

/-- ask advances the clock by its two timestamp reads. -/
theorem LLMCoordinator.ask_tick (b : Backend) (mem : Memory) (tick : Nat)
    (msg : String) :
    (LLMCoordinator.ask b mem tick msg).2.2 = tick + 2 := rfl

/-- ask leaves the retention bound unchanged. -/
theorem LLMCoordinator.ask_max_history (b : Backend) (mem : Memory)
    (tick : Nat) (msg : String) :
    (LLMCoordinator.ask b mem tick msg).2.1.max_history = mem.max_history := by
  rw [LLMCoordinator.ask_mem, Memory.add_max_history, Memory.add_max_history]

/-- Length of memory after one ask, for a positive bound: two more turns,
clipped at max_history. -/
theorem LLMCoordinator.length_ask (b : Backend) (mem : Memory) (tick : Nat)
    (msg : String) (h : 1 ≤ mem.max_history) :
    (LLMCoordinator.ask b mem tick msg).2.1.messages.length =
      min (mem.messages.length + 2) mem.max_history := by
  rw [LLMCoordinator.ask_mem]
  rw [Memory.length_add _ _ _ _ (by rw [Memory.add_max_history]; exact h)]
  rw [Memory.length_add _ _ _ _ h, Memory.add_max_history]
  omega

/-- Iterating ask keeps the retention bound unchanged. -/
theorem LLMCoordinator.askAll_max_history (b : Backend) (msgs : List String)
    (mem : Memory) (tick : Nat) :
    (LLMCoordinator.askAll b msgs mem tick).1.max_history = mem.max_history := by
  induction msgs generalizing mem tick with
  | nil => rfl
  | cons msg rest ih =>
      simp only [LLMCoordinator.askAll]
      rw [ih, LLMCoordinator.ask_max_history]

/-- Length of memory after a run of asks, for a positive bound holding the
invariant: two turns per call, clipped at max_history. -/
theorem LLMCoordinator.length_askAll (b : Backend) (msgs : List String)
    (mem : Memory) (tick : Nat) (h1 : 1 ≤ mem.max_history)
    (h2 : mem.messages.length ≤ mem.max_history) :
    (LLMCoordinator.askAll b msgs mem tick).1.messages.length =
      min (mem.messages.length + 2 * msgs.length) mem.max_history := by
  induction msgs generalizing mem tick with
  | nil =>
      simp only [LLMCoordinator.askAll, List.length_nil]
      omega
  | cons msg rest ih =>
      simp only [LLMCoordinator.askAll]
      have hmax := LLMCoordinator.ask_max_history b mem tick msg
      have hlen := LLMCoordinator.length_ask b mem tick msg h1
      rw [ih _ _ (by rw [hmax]; exact h1) (by rw [hmax, hlen]; omega)]
      rw [hmax, hlen, List.length_cons]
      omega

/-! The rendering of get_context against the spec wording. -/

/-- One turn rendered as the spec words it: role, colon and space, content. -/
def lineOf (t : Turn) : String := t.role ++ ": " ++ t.content

/-- Joining a list of rendered lines with newline separators (no trailing
separator), as the words joined by newlines describe. -/
def joinLines : List String → String
  | [] => ""
  | [x] => x
  | x :: y :: rest => x ++ "\n" ++ joinLines (y :: rest)

/-- Modelled from the spec wording of get_context, for comparison with the
source translation Memory.get_context: the most recent five turns, each
formatted role colon content, chronologically ordered, joined by newlines;
empty memory gives the empty string. -/
def Memory.get_context_spec (m : Memory) : String :=
  joinLines ((takeLastPy 5 m.messages).map lineOf)

/-- The accumulating loop of get_context, on a non-empty window, produces
the newline-joined lines followed by one trailing newline. -/
theorem foldl_render (l : List Turn) (s : String) (hl : l ≠ []) :
    l.foldl (fun out t => out ++ t.role ++ ": " ++ t.content ++ "\n") s =
      s ++ joinLines (l.map lineOf) ++ "\n" := by
  induction l generalizing s with
  | nil => exact absurd rfl hl
  | cons a rest ih =>
      cases rest with
      | nil =>
          simp only [List.foldl_cons, List.foldl_nil, List.map_cons,
            List.map_nil, joinLines, lineOf, String.append_assoc]
      | cons bb rest2 =>
          rw [List.foldl_cons, ih _ (by simp)]
          simp only [List.map_cons, joinLines, lineOf, String.append_assoc]

/-- A positive Python slice of a non-empty list is non-empty. -/
theorem takeLastPy_ne_nil {α : Type} (n : Nat) (xs : List α) (hn : n ≠ 0)
    (h : xs ≠ []) : takeLastPy n xs ≠ [] := by
  rw [takeLastPy_of_ne _ _ hn]
  have hx : 0 < xs.length := List.length_pos.mpr h
  have hd : 0 < (xs.drop (xs.length - n)).length := by
    rw [List.length_drop]
    omega
  exact List.length_pos.mp hd

/-! Claim theorems. -/

/-- C2 counterexample: with one stored turn, get_context returns the line
with a trailing newline, not the bare newline-joined rendering the claim
states. -/
theorem C2_counterexample :
    Memory.get_context ⟨[⟨"user", "hi", "T"⟩], 20⟩ = "user: hi\n" ∧
    Memory.get_context_spec ⟨[⟨"user", "hi", "T"⟩], 20⟩ = "user: hi" ∧
    Memory.get_context ⟨[⟨"user", "hi", "T"⟩], 20⟩ ≠
      Memory.get_context_spec ⟨[⟨"user", "hi", "T"⟩], 20⟩ := by
  refine ⟨rfl, rfl, ?_⟩
  decide

/-- C2 (amended): for every memory state, get_context returns the most
recent five turns (all turns when fewer than five), each formatted role
colon space content, in chronological order, joined by newlines and
followed by one trailing newline; empty memory gives the empty string.
(The claim as frozen omits the trailing newline.) -/
theorem C2_get_context_amended (m : Memory) :
    Memory.get_context m =
      if m.messages = [] then "" else Memory.get_context_spec m ++ "\n" := by
  by_cases h : m.messages = []
  · rw [if_pos h]
    unfold Memory.get_context
    rw [h]
    rfl
  · rw [if_neg h]
    unfold Memory.get_context Memory.get_context_spec
    rw [foldl_render _ _ (takeLastPy_ne_nil 5 m.messages (by omega) h)]
    rw [String.empty_append]

/-- C3: for every backend behaviour (every call may succeed or fail) and
every non-empty message, ask returns a well-formed result carrying exactly
the keys intent, urgency and reply. The fallible external calls are
absorbed inside classify and create_reply, whose translations are total
matches on the Except value, so ask never propagates an exception. -/
theorem C3_ask_total (b : Backend) (mem : Memory) (tick : Nat) (msg : String)
    (hmsg : msg ≠ "") :
    ∃ i u r mem2,
      LLMCoordinator.ask b mem tick msg =
        ([("intent", i), ("urgency", u), ("reply", r)], mem2, tick + 2) :=
  ⟨_, _, _, _, rfl⟩

/-- Witness for C3 at the always-failing backend and the message test. -/
theorem C3_witness :
    ("test" : String) ≠ "" ∧
    ∃ i u r mem2,
      LLMCoordinator.ask failBackend LLMCoordinator.initMemory 0 "test" =
        ([("intent", i), ("urgency", u), ("reply", r)], mem2, 0 + 2) :=
  ⟨by decide,
    C3_ask_total failBackend LLMCoordinator.initMemory 0 "test" (by decide)⟩

/-- C5 counterexample: with max_history zero the invariant is not
preserved: the Python slice [-0:] keeps everything, so add does not
truncate at all and the length exceeds the bound. -/
theorem C5_counterexample :
    (Memory.mk [] 0).messages.length ≤ (Memory.mk [] 0).max_history ∧
    ¬ (((Memory.mk [] 0).add "user" "hi" "T").messages.length ≤
        (Memory.mk [] 0).max_history) := by
  decide

/-- C5 (amended): for every memory state satisfying the invariant and
having positive max_history, add appends one turn and keeps exactly the
most recent max_history turns when the bound is exceeded (the drop count
is zero otherwise), so the invariant is preserved. (The claim as frozen
also covers max_history equal zero, where the code keeps everything.) -/
theorem C5_add_truncates (m : Memory) (r c t : String)
    (hinv : m.messages.length ≤ m.max_history) (hpos : 1 ≤ m.max_history) :
    (m.add r c t).messages =
      (m.messages ++ [(⟨r, c, t⟩ : Turn)]).drop
        ((m.messages.length + 1) - m.max_history) ∧
    (m.add r c t).messages.length ≤ m.max_history := by
  refine ⟨Memory.add_messages m r c t hpos, ?_⟩
  rw [Memory.length_add m r c t hpos]
  omega

/-- Witness for C5: a concrete bound-one memory where add evicts the old
turn and keeps the new one. -/
theorem C5_witness :
    (Memory.mk [⟨"user", "a", "T"⟩] 1).messages.length ≤
      (Memory.mk [⟨"user", "a", "T"⟩] 1).max_history ∧
    1 ≤ (Memory.mk [⟨"user", "a", "T"⟩] 1).max_history ∧
    (((Memory.mk [⟨"user", "a", "T"⟩] 1).add "agent" "b" "U").messages =
      ((Memory.mk [⟨"user", "a", "T"⟩] 1).messages ++
          [(⟨"agent", "b", "U"⟩ : Turn)]).drop
        (((Memory.mk [⟨"user", "a", "T"⟩] 1).messages.length + 1) -
          (Memory.mk [⟨"user", "a", "T"⟩] 1).max_history) ∧
    ((Memory.mk [⟨"user", "a", "T"⟩] 1).add "agent" "b" "U").messages.length ≤
      (Memory.mk [⟨"user", "a", "T"⟩] 1).max_history) :=
  ⟨by decide, by decide,
    C5_add_truncates (Memory.mk [⟨"user", "a", "T"⟩] 1) "agent" "b" "U"
      (by decide) (by decide)⟩

/-- C6: whenever the classification attempt fails in any way (the backend
call raises, the response text does not parse as a JSON dict, or a key is
missing), classify absorbs the failure and returns the sentinel pair of
error and low; in particular the always-failing backend yields the
sentinel for every message. -/
theorem C6_classify_fallback :
    (∀ (b : Backend) (msg : String) (e : Err),
        LLMIntentAgent.classifyAttempt b msg = Except.error e →
        LLMIntentAgent.classify b msg = ("error", "low")) ∧
    (∀ msg : String,
        LLMIntentAgent.classify failBackend msg = ("error", "low")) := by
  constructor
  · intro b msg e h
    unfold LLMIntentAgent.classify
    rw [h]
  · intro msg
    rfl

/-- Witness for C6 at a concrete failing input. -/
theorem C6_witness :
    LLMIntentAgent.classify failBackend "help" = ("error", "low") :=
  C6_classify_fallback.1 failBackend "help" ⟨"backend down"⟩ rfl

/-- C7: create_reply returns the backend text verbatim on success, and on
failure absorbs the exception and returns the one fixed user-safe fallback
string, the same for every input. -/
theorem C7_create_reply_contract (b : Backend)
    (msg intent urgency context : String) :
    (∀ text,
        b.generateText (replyPrompt intent urgency context) = Except.ok text →
        LLMReplyAgent.create_reply b msg intent urgency context = text) ∧
    (∀ e,
        b.generateText (replyPrompt intent urgency context) = Except.error e →
        LLMReplyAgent.create_reply b msg intent urgency context =
          "Sorry, I am having trouble connecting to my services right now.") := by
  constructor
  · intro text h
    unfold LLMReplyAgent.create_reply
    rw [h]
  · intro e h
    unfold LLMReplyAgent.create_reply
    rw [h]

/-- Witness for C7: the healthy backend text is echoed verbatim, the
failing backend yields the fixed fallback. -/
theorem C7_witness :
    LLMReplyAgent.create_reply okBackend "m" "i" "u" "ctx" = "reply" ∧
    LLMReplyAgent.create_reply failBackend "m" "i" "u" "ctx" =
      "Sorry, I am having trouble connecting to my services right now." :=
  ⟨(C7_create_reply_contract okBackend "m" "i" "u" "ctx").1 "reply" rfl,
   (C7_create_reply_contract failBackend "m" "i" "u" "ctx").2
     ⟨"backend down"⟩ rfl⟩

/-- C8: the result of ask carries exactly the classify pair, and its reply
is generated from the context string read from memory after the user turn
was appended: the context passed to create_reply is get_context of the
memory including the just-added user message plus prior history, with the
classification of the raw message feeding into the same call. -/
theorem C8_context_after_user_turn (b : Backend) (mem : Memory) (tick : Nat)
    (msg : String) :
    (LLMCoordinator.ask b mem tick msg).1 =
      [("intent", (LLMIntentAgent.classify b msg).1),
       ("urgency", (LLMIntentAgent.classify b msg).2),
       ("reply",
        LLMReplyAgent.create_reply b msg (LLMIntentAgent.classify b msg).1
          (LLMIntentAgent.classify b msg).2
          (Memory.get_context (mem.add "user" msg (b.now tick))))] := rfl

/-- get_context translated as a state transformer over the whole Memory
object: the method body only reads self.messages and builds the output
string, so the state component is returned untouched. -/
def Memory.get_context_st (m : Memory) : String × Memory :=
  ((takeLastPy 5 m.messages).foldl
    (fun out t => out ++ t.role ++ ": " ++ t.content ++ "\n") "", m)

/-- C9: get_context is a pure read: the stored sequence of turns and
max_history are exactly unchanged, and the string produced agrees with the
get_context rendering. -/
theorem C9_get_context_pure (m : Memory) :
    (Memory.get_context_st m).2 = m ∧
    (Memory.get_context_st m).1 = Memory.get_context m :=
  ⟨rfl, rfl⟩

/-- C1 counterexample: after eleven asks on a fresh coordinator memory
(max_history twenty), the oldest surviving turn is the second call's user
turn, with role user and content m02, hence not an agent reply as the
claim states. -/
theorem C1_counterexample :
    (LLMCoordinator.askAll okBackend msgs11
        LLMCoordinator.initMemory 0).1.messages.head? =
      some ⟨"user", "m02", "T"⟩ ∧
    (Turn.mk "user" "m02" "T").role ≠ "agent" := by
  refine ⟨by decide, by decide⟩

/-- C1 (amended): with max_history twenty, after eleven asks with distinct
messages memory holds exactly twenty turns, the oldest surviving turn is
the second call's user turn, and exactly the first call's user and agent
turns were evicted: what survives are the user and agent turns of calls
two through eleven in order. (The claim as frozen calls the oldest
survivor the second call's agent reply, contradicting its own accounting
that only the first call's pair was dropped.) -/
theorem C1_truncation_scenario :
    (LLMCoordinator.askAll okBackend msgs11
        LLMCoordinator.initMemory 0).1.messages.length = 20 ∧
    (LLMCoordinator.askAll okBackend msgs11
        LLMCoordinator.initMemory 0).1.messages =
      [⟨"user", "m02", "T"⟩, ⟨"agent", "reply", "T"⟩,
       ⟨"user", "m03", "T"⟩, ⟨"agent", "reply", "T"⟩,
       ⟨"user", "m04", "T"⟩, ⟨"agent", "reply", "T"⟩,
       ⟨"user", "m05", "T"⟩, ⟨"agent", "reply", "T"⟩,
       ⟨"user", "m06", "T"⟩, ⟨"agent", "reply", "T"⟩,
       ⟨"user", "m07", "T"⟩, ⟨"agent", "reply", "T"⟩,
       ⟨"user", "m08", "T"⟩, ⟨"agent", "reply", "T"⟩,
       ⟨"user", "m09", "T"⟩, ⟨"agent", "reply", "T"⟩,
       ⟨"user", "m10", "T"⟩, ⟨"agent", "reply", "T"⟩,
       ⟨"user", "m11", "T"⟩, ⟨"agent", "reply", "T"⟩] := by
  refine ⟨by decide, by decide⟩

/-- C4: every ask leaves memory with two more turns, subject to truncation
at max_history (for any positive bound the new length is the old length
plus two, clipped at the bound), and consequently a run of N asks from an
empty memory leaves exactly the minimum of twice N and max_history turns. -/
theorem C4_two_turns_per_ask :
    (∀ (b : Backend) (mem : Memory) (tick : Nat) (msg : String),
        1 ≤ mem.max_history →
        (LLMCoordinator.ask b mem tick msg).2.1.messages.length =
          min (mem.messages.length + 2) mem.max_history) ∧
    (∀ (b : Backend) (msgs : List String) (mh tick : Nat), 1 ≤ mh →
        (LLMCoordinator.askAll b msgs (Memory.mk [] mh) tick).1.messages.length =
          min (2 * msgs.length) mh) := by
  constructor
  · intro b mem tick msg h
    exact LLMCoordinator.length_ask b mem tick msg h
  · intro b msgs mh tick h
    have hall := LLMCoordinator.length_askAll b msgs (Memory.mk [] mh) tick h
      (by simp)
    simpa using hall

/-- Witness for C4: one ask on the fresh twenty-bounded memory, and three
asks against a bound of three. -/
theorem C4_witness :
    (LLMCoordinator.ask okBackend (Memory.mk [] 20) 0 "a").2.1.messages.length =
      min ((Memory.mk [] 20).messages.length + 2) (Memory.mk [] 20).max_history ∧
    (LLMCoordinator.askAll okBackend ["a", "b", "c"]
        (Memory.mk [] 3) 0).1.messages.length =
      min (2 * (["a", "b", "c"] : List String).length) 3 :=
  ⟨C4_two_turns_per_ask.1 okBackend (Memory.mk [] 20) 0 "a" (by decide),
   C4_two_turns_per_ask.2 okBackend ["a", "b", "c"] 3 0 (by decide)⟩

/-- C10: with a bound of at least two, ask returns the classify pair
unmodified together with the generated reply, and after the call the last
two turns in memory are the user turn carrying the message followed by the
agent turn whose content is exactly the returned reply. -/
theorem C10_reply_persisted (b : Backend) (mem : Memory) (tick : Nat)
    (msg : String) (h2 : 2 ≤ mem.max_history) :
    ∃ i u r pre,
      (LLMCoordinator.ask b mem tick msg).1 =
        [("intent", i), ("urgency", u), ("reply", r)] ∧
      (i, u) = LLMIntentAgent.classify b msg ∧
      (LLMCoordinator.ask b mem tick msg).2.1.messages =
        pre ++ [⟨"user", msg, b.now tick⟩, ⟨"agent", r, b.now (tick + 1)⟩] := by
  obtain ⟨pre1, hpre1⟩ := Memory.add_ends mem "user" msg (b.now tick)
  obtain ⟨q, hq⟩ :=
    Memory.add_keeps_last2 (mem.add "user" msg (b.now tick)) "agent"
      (LLMReplyAgent.create_reply b msg (LLMIntentAgent.classify b msg).1
        (LLMIntentAgent.classify b msg).2
        (Memory.get_context (mem.add "user" msg (b.now tick))))
      (b.now (tick + 1)) pre1 ⟨"user", msg, b.now tick⟩
      (by rw [Memory.add_max_history]; exact h2) hpre1
  refine ⟨(LLMIntentAgent.classify b msg).1, (LLMIntentAgent.classify b msg).2,
    LLMReplyAgent.create_reply b msg (LLMIntentAgent.classify b msg).1
      (LLMIntentAgent.classify b msg).2
      (Memory.get_context (mem.add "user" msg (b.now tick))), q, rfl, rfl, ?_⟩
  rw [LLMCoordinator.ask_mem]
  exact hq

/-- Witness for C10 on the fresh coordinator memory. -/
theorem C10_witness :
    2 ≤ (Memory.mk [] 20).max_history ∧
    ∃ i u r pre,
      (LLMCoordinator.ask okBackend (Memory.mk [] 20) 0 "hello").1 =
        [("intent", i), ("urgency", u), ("reply", r)] ∧
      (i, u) = LLMIntentAgent.classify okBackend "hello" ∧
      (LLMCoordinator.ask okBackend (Memory.mk [] 20) 0 "hello").2.1.messages =
        pre ++ [⟨"user", "hello", okBackend.now 0⟩,
                ⟨"agent", r, okBackend.now (0 + 1)⟩] :=
  ⟨by decide,
    C10_reply_persisted okBackend (Memory.mk [] 20) 0 "hello" (by decide)⟩
